import Mathlib

/-!
# terradb: the state service handlers over an abstract storage engine

A shallow embedding of `internal/api/states.go` (the HTTP handlers of the state
service) and of `internal/storage/storage.go` (the `Storage` interface).

A handler is embedded as a tree of engine calls (`Prog`): every node is one call
of a `Storage` capability together with the continuation that receives what the
engine returned, every leaf is the way the handler ends.  Running such a tree
against an engine gives the response, the list of engine calls that were made,
and the engine state afterwards.
-/

namespace TerraDB

/-! ## Go values -/

/-- A JSON value, as the text of a request body denotes it. -/
inductive JSON where
  | null
  | bool (b : Bool)
  | number (literal : String)
  | string (s : String)
  | array (items : List JSON)
  | object (members : List (String × JSON))

/-- Modelled from the spec: `state.LockInfo` is declared in the external package
`github.com/hashicorp/terraform/state`, which is not part of the repository.  The
spec describes it as "an identifier plus associated metadata", "a required
identity field and an open map of auxiliary metadata".  The handlers read only
the field `ID`. -/
structure LockInfo where
  ID : String
  metadata : List (String × JSON)

/-- A Go value held in an `interface{}`.

* `data v`: what `encoding/json` builds for the JSON value `v` (`nil` for
  `null`, `bool`, `float64`, `string`, `[]interface{}`, `map[string]interface{}`);
* `strings xs`: a `[]string`;
* `lockInfo p`: a `*state.LockInfo`, `none` being the nil pointer;
* `unsupported t`: a value `json.Marshal` rejects, `t` naming its Go type
  (a channel, a function, a complex number, a `float64` that is not finite). -/
inductive Value where
  | data (v : JSON)
  | strings (xs : List String)
  | lockInfo (p : Option LockInfo)
  | unsupported (goType : String)

/-- The comparison `x == nil` of an `interface{}` value: true for the nil
interface only, false for every typed value (a nil `*state.LockInfo` included). -/
def Value.isNil : Value → Bool
  | .data .null => true
  | _ => false

/-- Modelled from the spec: the failure classes of the storage contract
(`NotFound`, `Conflict` carrying the existing lock, `IOFailure`).  The source has
only Go's `error`; the handlers use nothing but its message. -/
inductive StorageError where
  | NotFound (msg : String)
  | Conflict (existing : Value) (msg : String)
  | IOFailure (msg : String)

/-- The method `Error()` of a Go `error`: its message. -/
def StorageError.Error : StorageError → String
  | .NotFound msg => msg
  | .Conflict _ msg => msg
  | .IOFailure msg => msg

/-! ## Requests and responses -/

/-- The bytes of a request body that was read in full, by what they denote. -/
inductive Bytes where
  /-- The bytes are not a JSON text; `err` is the syntax error of `encoding/json`. -/
  | invalid (err : String)
  /-- The bytes are the JSON text of `v`. -/
  | json (v : JSON)

/-- The body of a request (`r.Body`). -/
inductive Body where
  /-- Reading the body fails with `err`. -/
  | unreadable (err : String)
  | bytes (b : Bytes)

/-- The parts of `*http.Request` the handlers read. -/
structure Request where
  /-- The route variables, `mux.Vars(r)`. -/
  vars : String → Option String
  /-- The query parameters, `r.URL.Query()`. -/
  query : String → List String
  body : Body

/-- Indexing a Go `map[string]string`: the zero value when the key is missing. -/
def index (params : String → Option String) (key : String) : String :=
  (params key).getD ""

/-- The method `Get` of `url.Values`: the first value of the key, or the empty string. -/
def Get (values : String → List String) (key : String) : String :=
  (values key).headD ""

/-- What a handler wrote with `w.Write`. -/
inductive Payload where
  | empty
  | text (s : String)
  /-- The bytes `json.Marshal` produced for the value. -/
  | encoding (v : Value)

def StatusOK : Nat := 200
def StatusNoContent : Nat := 204
def StatusConflict : Nat := 409
def StatusLocked : Nat := 423
def StatusInternalServerError : Nat := 500

/-- How the execution of a handler ends: with a status and a body written, or with
a Go run-time panic (no status is written by the handler). -/
inductive Outcome where
  | responded (status : Nat) (body : Payload)
  | panicked (reason : String)

/-! ## The library functions the handlers call -/

/-- The call `ioutil.ReadAll(r.Body)`. -/
def ReadAll : Body → Except String Bytes
  | .unreadable err => .error err
  | .bytes b => .ok b

/-- The call `json.NewDecoder(r.Body).Decode(&document)` with `document` an
`interface{}`: every JSON value is accepted (`null` leaves `document` nil). -/
def Decode : Body → Except String Value
  | .unreadable err => .error err
  | .bytes (.invalid err) => .error err
  | .bytes (.json v) => .ok (.data v)

/-- Whether an object key names the field `ID` (the match of `encoding/json` is
case-insensitive). -/
def isIDKey (key : String) : Bool :=
  key.data.map Char.toLower == ['i', 'd']

/-- Filling a `LockInfo` from the members of a JSON object, in order: a string
under the key `ID` sets the identifier, `null` leaves it, any other value is a
type error; every other member is auxiliary metadata. -/
def fillLockInfo : List (String × JSON) → LockInfo → Except String LockInfo
  | [], l => .ok l
  | (key, v) :: rest, l =>
    if isIDKey key then
      match v with
      | .string s => fillLockInfo rest { l with ID := s }
      | .null => fillLockInfo rest l
      | _ => .error "json: cannot unmarshal value into Go struct field LockInfo.ID of type string"
    else fillLockInfo rest { l with metadata := l.metadata ++ [(key, v)] }

/-- The call `json.Unmarshal(body, &lock)` with `lock` a nil `*state.LockInfo`:
the literal `null` sets the pointer to nil without error, an object allocates a
record and fills it, any other JSON value is a type error. -/
def Unmarshal : Bytes → Except String (Option LockInfo)
  | .invalid err => .error err
  | .json .null => .ok none
  | .json (.object members) => (fillLockInfo members ⟨"", []⟩).map some
  | .json _ => .error "json: cannot unmarshal value into Go value of type state.LockInfo"

/-- The call `json.Marshal(v)`. -/
def Marshal : Value → Except String Payload
  | .unsupported goType => .error ("json: unsupported type: " ++ goType)
  | v => .ok (.encoding v)

/-- The value of a run of decimal digits, or `none` at the first other character. -/
def digitsValue : List Char → Nat → Option Nat
  | [], acc => some acc
  | c :: cs, acc =>
    if '0' ≤ c ∧ c ≤ '9' then digitsValue cs (acc * 10 + (c.toNat - '0'.toNat)) else none

/-- The call `strconv.Atoi(s)`: an optional sign, then at least one decimal digit
and nothing else; the value must fit a 64-bit `int`. -/
def Atoi (s : String) : Except String Int :=
  let syntaxError := "strconv.Atoi: parsing \"" ++ s ++ "\": invalid syntax"
  let rangeError := "strconv.Atoi: parsing \"" ++ s ++ "\": value out of range"
  let digits : Bool × List Char :=
    match s.data with
    | '-' :: cs => (true, cs)
    | '+' :: cs => (false, cs)
    | cs => (false, cs)
  match digits with
  | (_, []) => .error syntaxError
  | (negative, cs) =>
    match digitsValue cs 0 with
    | none => .error syntaxError
    | some n =>
      if negative then
        if n ≤ 2 ^ 63 then .ok (-(n : Int)) else .error rangeError
      else
        if n < 2 ^ 63 then .ok (n : Int) else .error rangeError

/-- The wall-clock reading of `time.Now()`, by its calendar fields. -/
structure Time where
  year : Nat
  month : Nat
  day : Nat
  hour : Nat
  minute : Nat
  second : Nat

/-- The decimal digit character of `n % 10`. -/
def digitChar (n : Nat) : Char :=
  Char.ofNat ('0'.toNat + n % 10)

/-- A number on two digits, zero padded. -/
def pad2 (n : Nat) : List Char :=
  [digitChar (n / 10), digitChar n]

/-- The year as `Format` writes it for the layout `2006`: zero padded to four
digits, longer when the year needs more. -/
def yearDigits (y : Nat) : List Char :=
  if y < 10000 then [digitChar (y / 1000), digitChar (y / 100), digitChar (y / 10), digitChar y]
  else Nat.toDigits 10 y

/-- The call `t.Format("20060102150405")`: year, month, day, hour, minute and
second, one after the other. -/
def Time.Format (t : Time) : String :=
  ⟨yearDigits t.year ++ pad2 t.month ++ pad2 t.day ++ pad2 t.hour ++ pad2 t.minute ++
    pad2 t.second⟩

/-! ## The storage engine -/

/-- The interface `Storage` of `internal/storage/storage.go` over engine states
`σ`.  The capabilities that answer a question (`ListStates`, `GetState`,
`ListStateSerials`, `GetLockStatus`) read the state and leave it as it is; the
capabilities that change something return the error (`none` for `nil`) and the
state after the call. -/
structure Storage (σ : Type) where
  GetName : String
  ListStates : σ → Except StorageError (List String)
  GetState : String → Int → σ → Except StorageError Value
  ListStateSerials : String → σ → Except StorageError (List String)
  InsertState : Value → String → String → String → σ → Option StorageError × σ
  RemoveState : String → σ → Option StorageError × σ
  GetLockStatus : String → σ → Except StorageError Value
  LockState : String → Value → σ → Option StorageError × σ
  UnlockState : String → Value → σ → Option StorageError × σ

/-- One call of an engine capability, with its arguments. -/
inductive Call where
  | ListStates
  | GetState (name : String) (serial : Int)
  | ListStateSerials (name : String)
  | InsertState (document : Value) (timestamp source name : String)
  | RemoveState (name : String)
  | GetLockStatus (name : String)
  | LockState (name : String) (lockData : Value)
  | UnlockState (name : String) (lockData : Value)

/-- A handler as a tree of engine calls: `done` ends the handler, every other node
calls the capability of the same name and continues with what it returned. -/
inductive Prog where
  | done (o : Outcome)
  | ListStates (k : Except StorageError (List String) → Prog)
  | GetState (name : String) (serial : Int) (k : Except StorageError Value → Prog)
  | ListStateSerials (name : String) (k : Except StorageError (List String) → Prog)
  | InsertState (document : Value) (timestamp source name : String)
      (k : Option StorageError → Prog)
  | RemoveState (name : String) (k : Option StorageError → Prog)
  | GetLockStatus (name : String) (k : Except StorageError Value → Prog)
  | LockState (name : String) (lockData : Value) (k : Option StorageError → Prog)
  | UnlockState (name : String) (lockData : Value) (k : Option StorageError → Prog)

/-- What one execution of a handler leaves: how it ended, the engine calls it
made, in order, and the engine state after them. -/
structure Result (σ : Type) where
  outcome : Outcome
  calls : List Call
  state : σ

/-- Recording one more call in front of a result. -/
def Result.after {σ : Type} (c : Call) (r : Result σ) : Result σ :=
  { r with calls := c :: r.calls }

/-- Running a handler against an engine from a state, one call after the other. -/
def Prog.run {σ : Type} (st : Storage σ) : Prog → σ → Result σ
  | .done o, s => ⟨o, [], s⟩
  | .ListStates k, s => ((k (st.ListStates s)).run st s).after .ListStates
  | .GetState name serial k, s =>
    ((k (st.GetState name serial s)).run st s).after (.GetState name serial)
  | .ListStateSerials name k, s =>
    ((k (st.ListStateSerials name s)).run st s).after (.ListStateSerials name)
  | .InsertState document timestamp source name k, s =>
    ((k (st.InsertState document timestamp source name s).1).run st
      (st.InsertState document timestamp source name s).2).after
      (.InsertState document timestamp source name)
  | .RemoveState name k, s =>
    ((k (st.RemoveState name s).1).run st (st.RemoveState name s).2).after (.RemoveState name)
  | .GetLockStatus name k, s =>
    ((k (st.GetLockStatus name s)).run st s).after (.GetLockStatus name)
  | .LockState name lockData k, s =>
    ((k (st.LockState name lockData s).1).run st (st.LockState name lockData s).2).after
      (.LockState name lockData)
  | .UnlockState name lockData k, s =>
    ((k (st.UnlockState name lockData s).1).run st (st.UnlockState name lockData s).2).after
      (.UnlockState name lockData)

/-! ## The handlers of `internal/api/states.go` -/

/-- The lines every failure path of the handlers shares: status 500 and the text
`500 - Internal server error: ` followed by the error. -/
def internalServerError (err : String) : Prog :=
  .done (.responded StatusInternalServerError (.text ("500 - Internal server error: " ++ err)))

namespace server

/-- The handler `InsertState`; `now` is what `time.Now()` reads. -/
def InsertState (now : Time) (r : Request) : Prog :=
  let params := r.vars
  let timestamp :=
    match params "timestamp" with
    | some timestamp => timestamp
    | none => now.Format
  let source :=
    match params "source" with
    | some source => source
    | none => "direct"
  match Decode r.body with
  | .error err => internalServerError err
  | .ok document =>
    .InsertState document timestamp source (index params "name") fun
      | some err => internalServerError err.Error
      | none => .done (.responded StatusOK .empty)

/-- The handler `ListStates`. -/
def ListStates (_r : Request) : Prog :=
  .ListStates fun
    | .error err => internalServerError err.Error
    | .ok states =>
      match Marshal (.strings states) with
      | .error err => internalServerError err
      | .ok data => .done (.responded StatusOK data)

/-- The handler `GetState`. -/
def GetState (r : Request) : Prog :=
  let params := r.vars
  let v := Get r.query "serial"
  match (if v ≠ "" then Atoi v else .ok 0) with
  | .error err => internalServerError err
  | .ok serial =>
    .GetState (index params "name") serial fun
      | .error err => internalServerError err.Error
      | .ok document =>
        if document.isNil then .done (.responded StatusNoContent .empty)
        else
          match Marshal document with
          | .error err => internalServerError err
          | .ok data => .done (.responded StatusOK data)

/-- The handler `ListStateSerials`. -/
def ListStateSerials (r : Request) : Prog :=
  let params := r.vars
  .ListStateSerials (index params "name") fun
    | .error err => internalServerError err.Error
    | .ok serials =>
      match Marshal (.strings serials) with
      | .error err => internalServerError err
      | .ok data => .done (.responded StatusOK data)

/-- The handler `RemoveState`. -/
def RemoveState (r : Request) : Prog :=
  let params := r.vars
  .RemoveState (index params "name") fun
    | some err => internalServerError err.Error
    | none => .done (.responded StatusOK .empty)

/-- The bytes of `d, _ := json.Marshal(v)`: nothing when the encoding fails. -/
def marshalled (v : Value) : Payload :=
  match Marshal v with
  | .ok d => d
  | .error _ => .empty

/-- The handler `LockState`.  The type assertion `lock.(*state.LockInfo)` panics
when the engine returned a value of another type, and reading `.ID` panics on a
nil pointer. -/
def LockState (r : Request) : Prog :=
  let params := r.vars
  match ReadAll r.body with
  | .error err => internalServerError err
  | .ok body =>
    match Unmarshal body with
    | .error err => internalServerError err
    | .ok currentLock =>
      .GetLockStatus (index params "name") fun
        | .error err => internalServerError err.Error
        | .ok lock =>
          if !lock.isNil then
            match lock with
            | .lockInfo remoteLock =>
              match currentLock, remoteLock with
              | some current, some remote =>
                if current.ID = remote.ID then
                  .done (.responded StatusLocked (marshalled lock))
                else
                  .done (.responded StatusConflict (marshalled (.lockInfo remoteLock)))
              | _, _ =>
                .done (.panicked "invalid memory address or nil pointer dereference")
            | _ => .done (.panicked "interface conversion: interface {} is not *state.LockInfo")
          else
            .LockState (index params "name") (.lockInfo currentLock) fun
              | some err => internalServerError err.Error
              | none => .done (.responded StatusOK .empty)

/-- The handler `UnlockState`. -/
def UnlockState (r : Request) : Prog :=
  let params := r.vars
  match ReadAll r.body with
  | .error err => internalServerError err
  | .ok body =>
    match Unmarshal body with
    | .error err => internalServerError err
    | .ok lockData =>
      .UnlockState (index params "name") (.lockInfo lockData) fun
        | some err => internalServerError err.Error
        | none => .done (.responded StatusOK .empty)

end server

/-- What the body of a lock or unlock request decodes to: `ReadAll`, then
`Unmarshal` into a `*state.LockInfo`. -/
def decodedLock (b : Body) : Except String (Option LockInfo) :=
  match ReadAll b with
  | .error err => .error err
  | .ok body => Unmarshal body

/-! ## Reference engines -/

/-- One stored version of a state stream. -/
structure Version where
  serial : Nat
  timestamp : String
  source : String
  document : Value

/-- The state of the in-memory engines: the versions of every stream, oldest
first, and the lock record of every name. -/
structure MemState where
  streams : List (String × List Version)
  locks : String → Option Value

/-- Setting or clearing the lock record of one name. -/
def setLock (locks : String → Option Value) (name : String) (v : Option Value) :
    String → Option Value :=
  fun n => if n = name then v else locks n

/-- The versions stored under a name; none for an unknown name. -/
def versionsOf (s : MemState) (name : String) : List Version :=
  (s.streams.lookup name).getD []

/-- Modelled from the spec: the storage engines are not part of the source, which
has only the interface.  This one follows the contract of the spec for the
documents (`getVersion`, `listVersions`, `insertVersion`, `removeStream`) and, for
the locks, is the simplest engine the spec allows: `LockState` stores the lock it
is given and `UnlockState` clears the lock record, neither looks at what is
stored. -/
def memEngine : Storage MemState where
  GetName := "memory"
  ListStates := fun s => .ok (s.streams.map Prod.fst)
  GetState := fun name serial s =>
    let versions := versionsOf s name
    let found :=
      if serial = 0 then versions.getLast?
      else versions.find? fun v => (v.serial : Int) = serial
    match found with
    | some v => .ok v.document
    | none => .ok (.data .null)
  ListStateSerials := fun name s =>
    match s.streams.lookup name with
    | none => .error (.NotFound ("no state named " ++ name))
    | some versions => .ok (versions.map fun v => toString v.serial)
  InsertState := fun document timestamp source name s =>
    let versions := versionsOf s name
    let current := (versions.map fun v => v.serial).foldl max 0
    let next : Version := ⟨current + 1, timestamp, source, document⟩
    (none, { s with
      streams := (name, versions ++ [next]) :: s.streams.filter fun e => e.1 ≠ name })
  RemoveState := fun name s =>
    match s.streams.lookup name with
    | none => (some (.NotFound ("no state named " ++ name)), s)
    | some _ =>
      (none, { streams := s.streams.filter fun e => e.1 ≠ name,
               locks := setLock s.locks name none })
  GetLockStatus := fun name s =>
    match s.locks name with
    | some lock => .ok lock
    | none => .ok (.data .null)
  LockState := fun name lockData s =>
    (none, { s with locks := setLock s.locks name (some lockData) })
  UnlockState := fun name _ s => (none, { s with locks := setLock s.locks name none })

/-- The identifier of a lock value, when it is a lock record. -/
def lockID : Value → Option String
  | .lockInfo (some l) => some l.ID
  | _ => none

/-- Modelled from the spec: an engine that enforces the identity match itself, as
the spec allows (`engines MAY also enforce identity match internally`):
`UnlockState` clears the lock record only when the presented lock has the
identifier of the stored one, and fails with a conflict otherwise. -/
def guardedEngine : Storage MemState :=
  { memEngine with
    GetName := "memory-guarded"
    UnlockState := fun name lockData s =>
      match s.locks name with
      | none => (none, s)
      | some stored =>
        if lockID stored = lockID lockData then
          (none, { s with locks := setLock s.locks name none })
        else (some (.Conflict stored "lock held with another identifier"), s) }

/-- Modelled from the spec: an engine whose `LockState` is the single guarded
check-and-set of the spec, `insert lock iff absent`: it fails with a conflict
carrying the existing lock when one is present and stores the new lock
otherwise. -/
def atomicEngine : Storage MemState :=
  { memEngine with
    GetName := "memory-atomic"
    LockState := fun name lockData s =>
      match s.locks name with
      | some stored => (some (.Conflict stored "state is already locked"), s)
      | none => (none, { s with locks := setLock s.locks name (some lockData) }) }

/-! ## Outcomes, request sequences and interleavings -/

/-- The response of every failure path: status 500 with the error text. -/
def failure (err : String) : Outcome :=
  .responded 500 (.text ("500 - Internal server error: " ++ err))

/-- The response of the success path of the handlers that write no body. -/
def success : Outcome := .responded 200 .empty

/-- The name a request addresses, `params["name"]`. -/
def Request.name (r : Request) : String := index r.vars "name"

/-- A lock or an unlock request. -/
inductive Op where
  | lock (r : Request)
  | unlock (r : Request)

/-- The request of an operation. -/
def Op.request : Op → Request
  | .lock r => r
  | .unlock r => r

/-- The handler that serves an operation. -/
def Op.prog : Op → Prog
  | .lock r => server.LockState r
  | .unlock r => server.UnlockState r

/-- Serving a sequence of requests one at a time: the outcomes, in order, and the
engine state at the end. -/
def serve {σ : Type} (st : Storage σ) : List Op → σ → List Outcome × σ
  | [], s => ([], s)
  | op :: ops, s =>
    let res := op.prog.run st s
    let rest := serve st ops res.state
    (res.outcome :: rest.1, rest.2)

/-- One step of a handler: its next engine call is made and the handler moves to
the continuation; a handler that has ended stays where it is. -/
def Prog.step {σ : Type} (st : Storage σ) : Prog → σ → Prog × σ
  | .done o, s => (.done o, s)
  | .ListStates k, s => (k (st.ListStates s), s)
  | .GetState name serial k, s => (k (st.GetState name serial s), s)
  | .ListStateSerials name k, s => (k (st.ListStateSerials name s), s)
  | .InsertState document timestamp source name k, s =>
    (k (st.InsertState document timestamp source name s).1,
      (st.InsertState document timestamp source name s).2)
  | .RemoveState name k, s => (k (st.RemoveState name s).1, (st.RemoveState name s).2)
  | .GetLockStatus name k, s => (k (st.GetLockStatus name s), s)
  | .LockState name lockData k, s =>
    (k (st.LockState name lockData s).1, (st.LockState name lockData s).2)
  | .UnlockState name lockData k, s =>
    (k (st.UnlockState name lockData s).1, (st.UnlockState name lockData s).2)

/-- The outcome of a handler that has ended. -/
def Prog.ended : Prog → Option Outcome
  | .done o => some o
  | _ => none

/-- Two handlers served concurrently over one engine, whose calls are indivisible:
the schedule says, step by step, which of the two makes its next engine call
(`true` for the first).  The result is how each handler ended (`none` for a
handler the schedule left unfinished) and the engine state. -/
def interleave {σ : Type} (st : Storage σ) :
    List Bool → Prog → Prog → σ → Option Outcome × Option Outcome × σ
  | [], p, q, s => (p.ended, q.ended, s)
  | true :: schedule, p, q, s => interleave st schedule (p.step st s).1 q (p.step st s).2
  | false :: schedule, p, q, s => interleave st schedule p (q.step st s).1 (q.step st s).2

/-! ## The clock -/

/-- The calendar fields of a clock reading are in range, with a year of at most
four digits. -/
def Time.valid (t : Time) : Prop :=
  t.year ≤ 9999 ∧ 1 ≤ t.month ∧ t.month ≤ 12 ∧ 1 ≤ t.day ∧ t.day ≤ 31 ∧
    t.hour ≤ 23 ∧ t.minute ≤ 59 ∧ t.second ≤ 59

/-- Chronological order of two clock readings: the order of their calendar
fields, the year first. -/
def Time.before (a b : Time) : Prop :=
  a.year < b.year ∨ (a.year = b.year ∧ (a.month < b.month ∨ (a.month = b.month ∧
    (a.day < b.day ∨ (a.day = b.day ∧ (a.hour < b.hour ∨ (a.hour = b.hour ∧
      (a.minute < b.minute ∨ (a.minute = b.minute ∧ a.second < b.second)))))))))

/-! ## Concrete requests and states -/

/-- The route variables of a request for a name, nothing else supplied. -/
def varsOf (name : String) : String → Option String :=
  fun key => if key = "name" then some name else none

/-- A lock record with an identifier and no metadata. -/
def lockOf (id : String) : LockInfo := ⟨id, []⟩

/-- A request for the name `prod` whose body is the JSON object with the one
member `ID`. -/
def prodRequest (id : String) : Request :=
  ⟨varsOf "prod", fun _ => [], .bytes (.json (.object [("ID", .string id)]))⟩

/-- A request for the name `prod` whose body is the JSON literal `null`. -/
def nullRequest : Request :=
  ⟨varsOf "prod", fun _ => [], .bytes (.json .null)⟩

/-- A request for the name `prod` whose body is not JSON. -/
def brokenRequest : Request :=
  ⟨varsOf "prod", fun _ => [],
    .bytes (.invalid "invalid character 'x' looking for beginning of value")⟩

/-- A request for the name `prod` with a serial parameter. -/
def serialRequest (serial : String) : Request :=
  ⟨varsOf "prod", fun key => if key = "serial" then [serial] else [], .bytes (.json .null)⟩

/-- The engine state with no stream and no lock. -/
def emptyState : MemState := ⟨[], fun _ => none⟩

/-- The engine state in which `prod` is locked with the given identifier. -/
def heldBy (id : String) : MemState :=
  ⟨[], setLock (fun _ => none) "prod" (some (.lockInfo (some (lockOf id))))⟩

/-- The engine state in which the lock of `prod` is stored as the data decoded
from the JSON object with the member `ID`. -/
def heldAsMap : MemState :=
  ⟨[], setLock (fun _ => none) "prod" (some (.data (.object [("ID", .string "A")])))⟩

/-- The engine state in which `prod` has one version with the given document. -/
def storing (document : Value) : MemState :=
  ⟨[("prod", [⟨1, "20261104090507", "direct", document⟩])], fun _ => none⟩

/-- The scenario of the spec on the name `prod`: lock by `A`, lock by `A` again,
lock by `B`, unlock by `A`, lock by `B`. -/
def scenario : List Op :=
  [.lock (prodRequest "A"), .lock (prodRequest "A"), .lock (prodRequest "B"),
   .unlock (prodRequest "A"), .lock (prodRequest "B")]

/-- An engine every capability of which fails with an `IOFailure`. -/
def failingEngine (msg : String) : Storage Unit where
  GetName := "failing"
  ListStates := fun _ => .error (.IOFailure msg)
  GetState := fun _ _ _ => .error (.IOFailure msg)
  ListStateSerials := fun _ _ => .error (.IOFailure msg)
  InsertState := fun _ _ _ _ s => (some (.IOFailure msg), s)
  RemoveState := fun _ s => (some (.IOFailure msg), s)
  GetLockStatus := fun _ _ => .error (.IOFailure msg)
  LockState := fun _ _ s => (some (.IOFailure msg), s)
  UnlockState := fun _ _ s => (some (.IOFailure msg), s)

/-- An engine that reports no lock and whose mutating capabilities fail with an
`IOFailure`. -/
def failingEngineAfterStatus : Storage Unit :=
  { failingEngine "disk failure" with
    GetName := "failing-writes"
    GetLockStatus := fun _ _ => .ok (.data .null) }

/-- An engine keeps the locks of a name: after a `LockState` call that returned no
error `GetLockStatus` reports the lock that was given, and an `UnlockState` call
that returned an error leaves what `GetLockStatus` reports. -/
def KeepsLocks {σ : Type} (st : Storage σ) (name : String) : Prop :=
  (∀ v s, (st.LockState name v s).1 = none →
    st.GetLockStatus name (st.LockState name v s).2 = .ok v) ∧
  (∀ v s, (st.UnlockState name v s).1 ≠ none →
    st.GetLockStatus name (st.UnlockState name v s).2 = st.GetLockStatus name s)

/-! ## The stages of a lock request -/

/-- A handler about to call the engine's `LockState` for the name, which succeeds
exactly when that call returns no error. -/
def Committing (name : String) : Prog → Prop
  | .LockState n _ k => n = name ∧ k none = .done success ∧
      ∀ e, ∃ o, k (some e) = .done o ∧ o ≠ success
  | _ => False

/-- A handler that has ended without success or is about to call `LockState`. -/
def Deciding (name : String) (p : Prog) : Prop :=
  (∃ o, p = .done o ∧ o ≠ success) ∨ Committing name p

/-- The stages of the handler `LockState` for a name: ended, about to call
`LockState`, or about to call `GetLockStatus`. -/
def Residual (name : String) (p : Prog) : Prop :=
  (∃ o, p = .done o) ∨ Committing name p ∨
    ∃ k, p = .GetLockStatus name k ∧ ∀ x, Deciding name (k x)

/-- A handler for a lock request that ends after at most `n` further engine calls. -/
def EndsWithin (name : String) : Nat → Prog → Prop
  | 0, p => ∃ o, p = .done o
  | 1, p => (∃ o, p = .done o) ∨ Committing name p
  | _ + 2, p => Residual name p

open server

/-! ## The executions of the lock and unlock handlers -/

theorem decodedLock_error {b : Body} {err : String} (h : decodedLock b = .error err) :
    ReadAll b = .error err ∨ ∃ body, ReadAll b = .ok body ∧ Unmarshal body = .error err := by
  unfold decodedLock at h
  cases hb : ReadAll b with
  | error e => left; simpa [hb] using h
  | ok body => right; exact ⟨body, rfl, by simpa [hb] using h⟩

theorem decodedLock_ok {b : Body} {p : Option LockInfo} (h : decodedLock b = .ok p) :
    ∃ body, ReadAll b = .ok body ∧ Unmarshal body = .ok p := by
  unfold decodedLock at h
  cases hb : ReadAll b with
  | error e => simp [hb] at h
  | ok body => exact ⟨body, rfl, by simpa [hb] using h⟩

theorem LockState_run_undecodable {σ : Type} (st : Storage σ) (s : σ) (r : Request)
    (err : String) (h : decodedLock r.body = .error err) :
    (LockState r).run st s = ⟨failure err, [], s⟩ := by
  rcases decodedLock_error h with hb | ⟨body, hb, hu⟩
  · simp [LockState, hb, internalServerError, Prog.run, failure, StatusInternalServerError]
  · simp [LockState, hb, hu, internalServerError, Prog.run, failure, StatusInternalServerError]

theorem LockState_run_statusError {σ : Type} (st : Storage σ) (s : σ) (r : Request)
    (p : Option LockInfo) (e : StorageError) (h : decodedLock r.body = .ok p)
    (hs : st.GetLockStatus (index r.vars "name") s = .error e) :
    (LockState r).run st s = ⟨failure e.Error, [.GetLockStatus (index r.vars "name")], s⟩ := by
  obtain ⟨body, hb, hu⟩ := decodedLock_ok h
  simp [LockState, hb, hu, internalServerError, Prog.run, failure, StatusInternalServerError, hs,
    Result.after]

theorem LockState_run_free {σ : Type} (st : Storage σ) (s : σ) (r : Request)
    (p : Option LockInfo) (lock : Value) (h : decodedLock r.body = .ok p)
    (hs : st.GetLockStatus (index r.vars "name") s = .ok lock) (hnil : lock.isNil = true) :
    (LockState r).run st s =
      ⟨match (st.LockState (index r.vars "name") (.lockInfo p) s).1 with
        | some err => failure err.Error
        | none => success,
       [.GetLockStatus (index r.vars "name"), .LockState (index r.vars "name") (.lockInfo p)],
       (st.LockState (index r.vars "name") (.lockInfo p) s).2⟩ := by
  obtain ⟨body, hb, hu⟩ := decodedLock_ok h
  simp only [LockState, hb, hu, Prog.run, hs, Result.after, hnil]
  cases he : (st.LockState (index r.vars "name") (.lockInfo p) s).1 <;>
    simp [he, internalServerError, Prog.run, failure, success, StatusInternalServerError, StatusOK]

theorem LockState_run_held {σ : Type} (st : Storage σ) (s : σ) (r : Request)
    (p : Option LockInfo) (lock : Value) (h : decodedLock r.body = .ok p)
    (hs : st.GetLockStatus (index r.vars "name") s = .ok lock) (hnil : lock.isNil = false) :
    ((LockState r).run st s).calls = [.GetLockStatus (index r.vars "name")] ∧
    ((LockState r).run st s).state = s ∧
    ∀ payload, ((LockState r).run st s).outcome ≠ .responded 200 payload := by
  obtain ⟨body, hb, hu⟩ := decodedLock_ok h
  simp only [LockState, hb, hu, Prog.run, hs, Result.after, hnil]
  cases lock with
  | lockInfo q =>
    cases p <;> cases q <;> simp [Prog.run, StatusLocked, StatusConflict]
    split <;> simp [Prog.run, StatusLocked, StatusConflict]
  | _ => simp [Prog.run]

theorem UnlockState_run_undecodable {σ : Type} (st : Storage σ) (s : σ) (r : Request)
    (err : String) (h : decodedLock r.body = .error err) :
    (UnlockState r).run st s = ⟨failure err, [], s⟩ := by
  rcases decodedLock_error h with hb | ⟨body, hb, hu⟩
  · simp [UnlockState, hb, internalServerError, Prog.run, failure, StatusInternalServerError]
  · simp [UnlockState, hb, hu, internalServerError, Prog.run, failure, StatusInternalServerError]

theorem UnlockState_run_decoded {σ : Type} (st : Storage σ) (s : σ) (r : Request)
    (p : Option LockInfo) (h : decodedLock r.body = .ok p) :
    (UnlockState r).run st s =
      ⟨match (st.UnlockState (index r.vars "name") (.lockInfo p) s).1 with
        | some err => failure err.Error
        | none => success,
       [.UnlockState (index r.vars "name") (.lockInfo p)],
       (st.UnlockState (index r.vars "name") (.lockInfo p) s).2⟩ := by
  obtain ⟨body, hb, hu⟩ := decodedLock_ok h
  simp only [UnlockState, hb, hu, Prog.run, Result.after]
  cases he : (st.UnlockState (index r.vars "name") (.lockInfo p) s).1 <;>
    simp [he, internalServerError, Prog.run, failure, success, StatusInternalServerError, StatusOK]

/-! ## Conflicting lock requests -/

theorem LockState_run_conflict {σ : Type} (st : Storage σ) (s : σ) (r : Request)
    (L R : LockInfo) (hbody : decodedLock r.body = .ok (some R))
    (hlock : st.GetLockStatus (index r.vars "name") s = .ok (.lockInfo (some L))) :
    ((LockState r).run st s).outcome =
      .responded (if R.ID = L.ID then 423 else 409) (.encoding (.lockInfo (some L))) := by
  obtain ⟨body, hb, hu⟩ := decodedLock_ok hbody
  by_cases h : R.ID = L.ID <;>
    simp [LockState, hb, hu, Prog.run, hlock, Result.after, Value.isNil, h, marshalled, Marshal,
      StatusLocked, StatusConflict]

/-- C2: when the engine reports an existing lock `L` for the name and the body of
a Lock request decodes to a lock identity `R`, the handler `LockState` responds
with 423 (Locked) if `R.ID = L.ID` and with 409 (Conflict) if `R.ID ≠ L.ID`; in
both cases the body is the JSON encoding of the stored lock `L`. -/
theorem LockState_self_or_foreign_conflict {σ : Type} (st : Storage σ) (s : σ) (r : Request)
    (L R : LockInfo)
    (hbody : decodedLock r.body = .ok (some R))
    (hlock : st.GetLockStatus r.name s = .ok (.lockInfo (some L))) :
    (R.ID = L.ID → ((LockState r).run st s).outcome
        = .responded 423 (.encoding (.lockInfo (some L)))) ∧
    (R.ID ≠ L.ID → ((LockState r).run st s).outcome
        = .responded 409 (.encoding (.lockInfo (some L)))) := by
  have h := LockState_run_conflict st s r L R hbody hlock
  constructor <;> intro hid <;> simpa [hid] using h

/-- With `prod` locked by `A` in the in-memory engine, a Lock request by `A` gets
423 and one by `B` gets 409, both with the lock of `A` as body. -/
theorem LockState_self_or_foreign_conflict_witness :
    ((LockState (prodRequest "A")).run memEngine (heldBy "A")).outcome
        = .responded 423 (.encoding (.lockInfo (some (lockOf "A")))) ∧
    ((LockState (prodRequest "B")).run memEngine (heldBy "A")).outcome
        = .responded 409 (.encoding (.lockInfo (some (lockOf "A")))) :=
  ⟨(LockState_self_or_foreign_conflict memEngine (heldBy "A") (prodRequest "A") (lockOf "A")
      (lockOf "A") rfl rfl).1 rfl,
   (LockState_self_or_foreign_conflict memEngine (heldBy "A") (prodRequest "B") (lockOf "A")
      (lockOf "B") rfl rfl).2 (by decide)⟩

/-- C3: when the engine reports the lock `L` for the name, the handler `LockState`
makes no engine call other than `GetLockStatus` for any Lock request (so neither
`LockState` nor `UnlockState` of the engine is invoked), the engine state after
the request is the state before it, the engine still reports exactly `L`, and
the request does not succeed. -/
theorem LockState_conflict_leaves_lock {σ : Type} (st : Storage σ) (s : σ) (r : Request)
    (L : LockInfo) (hlock : st.GetLockStatus r.name s = .ok (.lockInfo (some L))) :
    (∀ c ∈ ((LockState r).run st s).calls, c = .GetLockStatus r.name) ∧
    ((LockState r).run st s).state = s ∧
    st.GetLockStatus r.name ((LockState r).run st s).state = .ok (.lockInfo (some L)) ∧
    ((LockState r).run st s).outcome ≠ success := by
  unfold Request.name at hlock ⊢
  cases hd : decodedLock r.body with
  | error err =>
    rw [LockState_run_undecodable st s r err hd]
    simp [hlock, failure, success]
  | ok p =>
    obtain ⟨hc, hs, ho⟩ := LockState_run_held st s r p _ hd hlock rfl
    rw [hc, hs]
    simp [hlock, ho, success]

/-- With `prod` locked by `A` in the in-memory engine, a Lock request by `B`
leaves the engine state as it was. -/
theorem LockState_conflict_leaves_lock_witness :
    ((LockState (prodRequest "B")).run memEngine (heldBy "A")).state = heldBy "A" :=
  (LockState_conflict_leaves_lock memEngine (heldBy "A") (prodRequest "B") (lockOf "A") rfl).2.1

/-! ## Malformed input -/

/-- C8: a request whose body fails to decode (`InsertState`, `LockState`,
`UnlockState`) or whose serial parameter is not empty and is rejected by `Atoi`
(`GetState`) gets the failure response, the handler makes no engine call at all,
and the engine state after the request is the state before it. -/
theorem malformed_input_no_effect {σ : Type} (st : Storage σ) (s : σ) (now : Time)
    (r : Request) (err : String) :
    (Decode r.body = .error err →
      (InsertState now r).run st s = ⟨failure err, [], s⟩) ∧
    (decodedLock r.body = .error err →
      (LockState r).run st s = ⟨failure err, [], s⟩) ∧
    (decodedLock r.body = .error err →
      (UnlockState r).run st s = ⟨failure err, [], s⟩) ∧
    (Get r.query "serial" ≠ "" → Atoi (Get r.query "serial") = .error err →
      (GetState r).run st s = ⟨failure err, [], s⟩) := by
  refine ⟨fun h => ?_, LockState_run_undecodable st s r err,
    UnlockState_run_undecodable st s r err, fun hne h => ?_⟩
  · simp [InsertState, h, internalServerError, Prog.run, failure, StatusInternalServerError]
  · simp [GetState, h, hne, internalServerError, Prog.run, failure, StatusInternalServerError]

/-- A body that is not JSON and the serial `1x`, over the in-memory engine with
`prod` locked by `A`: failure, no engine call, the state as before. -/
theorem malformed_input_no_effect_witness :
    (InsertState ⟨2026, 11, 4, 9, 5, 7⟩ brokenRequest).run memEngine (heldBy "A")
      = ⟨failure "invalid character 'x' looking for beginning of value", [], heldBy "A"⟩ ∧
    (LockState brokenRequest).run memEngine (heldBy "A")
      = ⟨failure "invalid character 'x' looking for beginning of value", [], heldBy "A"⟩ ∧
    (UnlockState brokenRequest).run memEngine (heldBy "A")
      = ⟨failure "invalid character 'x' looking for beginning of value", [], heldBy "A"⟩ ∧
    (GetState (serialRequest "1x")).run memEngine (heldBy "A")
      = ⟨failure "strconv.Atoi: parsing \"1x\": invalid syntax", [], heldBy "A"⟩ :=
  ⟨(malformed_input_no_effect memEngine (heldBy "A") ⟨2026, 11, 4, 9, 5, 7⟩ brokenRequest _).1 rfl,
   (malformed_input_no_effect memEngine (heldBy "A") ⟨2026, 11, 4, 9, 5, 7⟩ brokenRequest _).2.1 rfl,
   (malformed_input_no_effect memEngine (heldBy "A") ⟨2026, 11, 4, 9, 5, 7⟩ brokenRequest _).2.2.1 rfl,
   (malformed_input_no_effect memEngine (heldBy "A") ⟨2026, 11, 4, 9, 5, 7⟩ (serialRequest "1x") _).2.2.2
     (by decide) rfl⟩

/-! ## The null body -/

/-- C10, the failing input evaluated: the body `null` decodes without error to a
missing identity, the engine reports the lock of `A`, and the handler
`LockState` ends in a nil pointer dereference instead of a response; it also
ends in a failed type assertion when the engine reports a lock that is not a
`*state.LockInfo`. -/
theorem LockState_null_body_panics :
    decodedLock nullRequest.body = .ok none ∧
    memEngine.GetLockStatus nullRequest.name (heldBy "A") = .ok (.lockInfo (some (lockOf "A"))) ∧
    ((LockState nullRequest).run memEngine (heldBy "A")).outcome
      = .panicked "invalid memory address or nil pointer dereference" ∧
    ((LockState (prodRequest "A")).run memEngine heldAsMap).outcome
      = .panicked "interface conversion: interface {} is not *state.LockInfo" :=
  ⟨rfl, rfl, rfl, rfl⟩

/-! ## Engine failures -/

/-- C6 is false on the code: the in-memory engine fails with a `NotFound` error
for the unknown name `prod`, and the handlers `ListStateSerials` and
`RemoveState` respond exactly as they do over an engine that fails with an
`IOFailure` of the same message; the status is 500 whatever the message. -/
theorem unknown_name_is_generic_failure :
    memEngine.ListStateSerials "prod" emptyState = .error (.NotFound "no state named prod") ∧
    (memEngine.RemoveState "prod" emptyState).1 = some (.NotFound "no state named prod") ∧
    ((ListStateSerials (prodRequest "A")).run memEngine emptyState).outcome
      = ((ListStateSerials (prodRequest "A")).run (failingEngine "no state named prod") ()).outcome ∧
    ((RemoveState (prodRequest "A")).run memEngine emptyState).outcome
      = ((RemoveState (prodRequest "A")).run (failingEngine "no state named prod") ()).outcome ∧
    ((ListStateSerials (prodRequest "A")).run memEngine emptyState).outcome
      = .responded 500 (.text "500 - Internal server error: no state named prod") ∧
    ((ListStateSerials (prodRequest "A")).run (failingEngine "disk failure") ()).outcome
      = .responded 500 (.text "500 - Internal server error: disk failure") :=
  ⟨rfl, rfl, rfl, rfl, rfl, rfl⟩

/-- C6 amended: whatever the class of the error the engine's `ListStateSerials`
(respectively `RemoveState`) fails with, the handler responds with status 500 and
the text `500 - Internal server error: ` followed by the message of the error;
the class of the error has no part in the response. -/
theorem engine_failure_is_internal_server_error {σ : Type} (st : Storage σ) (s : σ)
    (r : Request) (e : StorageError) :
    (st.ListStateSerials r.name s = .error e →
      ((ListStateSerials r).run st s).outcome
        = .responded 500 (.text ("500 - Internal server error: " ++ e.Error))) ∧
    ((st.RemoveState r.name s).1 = some e →
      ((RemoveState r).run st s).outcome
        = .responded 500 (.text ("500 - Internal server error: " ++ e.Error))) := by
  unfold Request.name
  constructor <;> intro h <;>
    simp [ListStateSerials, RemoveState, h, Prog.run, Result.after, internalServerError,
      StatusInternalServerError]

/-- A `NotFound` error of the in-memory engine and an `IOFailure` of the failing
engine both give status 500 with the message. -/
theorem engine_failure_is_internal_server_error_witness :
    ((ListStateSerials (prodRequest "A")).run memEngine emptyState).outcome
      = .responded 500 (.text ("500 - Internal server error: " ++ "no state named prod")) ∧
    ((RemoveState (prodRequest "A")).run (failingEngine "disk failure") ()).outcome
      = .responded 500 (.text ("500 - Internal server error: " ++ "disk failure")) :=
  ⟨(engine_failure_is_internal_server_error memEngine emptyState (prodRequest "A")
      (.NotFound "no state named prod")).1 rfl,
   (engine_failure_is_internal_server_error (failingEngine "disk failure") () (prodRequest "A")
      (.IOFailure "disk failure")).2 rfl⟩

/-! ## Reading a version -/

/-- C7 is false on the code: the serial `1` parses, the engine returns a document
without error, and the handler `GetState` still responds with the failure
status 500, because the document (a Go channel) has no JSON encoding. -/
theorem GetState_fails_on_unencodable_document :
    Atoi (Get (serialRequest "1").query "serial") = .ok 1 ∧
    memEngine.GetState "prod" 1 (storing (.unsupported "chan int")) = .ok (.unsupported "chan int") ∧
    ((GetState (serialRequest "1")).run memEngine (storing (.unsupported "chan int"))).outcome
      = .responded 500 (.text "500 - Internal server error: json: unsupported type: chan int") :=
  ⟨rfl, rfl, rfl⟩

/-- C7 amended: the handler `GetState` calls the engine's `GetState` once, with
the parsed serial, or with 0 when the serial parameter is absent or empty, and
leaves the engine state as it was; a nil document without error gives 204 with
an empty body, a document that `json.Marshal` accepts gives 200 with its JSON
encoding; a failure response is produced only when the serial does not parse,
the engine returns an error, or the document has no JSON encoding. -/
theorem GetState_outcomes {σ : Type} (st : Storage σ) (s : σ) (r : Request) :
    (∀ serial : Int,
      (Get r.query "serial" = "" ∧ serial = 0) ∨
        (Get r.query "serial" ≠ "" ∧ Atoi (Get r.query "serial") = .ok serial) →
      ((GetState r).run st s).calls = [.GetState r.name serial] ∧
      ((GetState r).run st s).state = s ∧
      (∀ document, st.GetState r.name serial s = .ok document → document.isNil = true →
        ((GetState r).run st s).outcome = .responded 204 .empty) ∧
      (∀ document, st.GetState r.name serial s = .ok document → document.isNil = false →
        (∀ goType, document ≠ .unsupported goType) →
        ((GetState r).run st s).outcome = .responded 200 (.encoding document)) ∧
      (∀ body, ((GetState r).run st s).outcome = .responded 500 body →
        (∃ e, st.GetState r.name serial s = .error e) ∨
        (∃ goType, st.GetState r.name serial s = .ok (.unsupported goType)))) ∧
    (∀ body, ((GetState r).run st s).outcome = .responded 500 body →
      (Get r.query "serial" ≠ "" ∧ ∃ err, Atoi (Get r.query "serial") = .error err) ∨
      (∃ serial e, st.GetState r.name serial s = .error e) ∨
      (∃ serial goType, st.GetState r.name serial s = .ok (.unsupported goType))) := by
  have key : ∀ serial : Int,
      (if Get r.query "serial" ≠ "" then Atoi (Get r.query "serial") else Except.ok 0)
        = .ok serial →
      ((GetState r).run st s).calls = [.GetState r.name serial] ∧
      ((GetState r).run st s).state = s ∧
      (∀ document, st.GetState r.name serial s = .ok document → document.isNil = true →
        ((GetState r).run st s).outcome = .responded 204 .empty) ∧
      (∀ document, st.GetState r.name serial s = .ok document → document.isNil = false →
        (∀ goType, document ≠ .unsupported goType) →
        ((GetState r).run st s).outcome = .responded 200 (.encoding document)) ∧
      (∀ body, ((GetState r).run st s).outcome = .responded 500 body →
        (∃ e, st.GetState r.name serial s = .error e) ∨
        (∃ goType, st.GetState r.name serial s = .ok (.unsupported goType))) := by
    intro serial hs
    unfold Request.name
    simp only [GetState, hs, Prog.run, Result.after]
    cases hg : st.GetState (index r.vars "name") serial s with
    | error e =>
      simp [internalServerError, Prog.run, StatusInternalServerError]
    | ok document =>
      cases hn : document.isNil with
      | true => simp [hn, Prog.run, StatusNoContent]
      | false =>
        cases document with
        | unsupported t => simp [hn, Marshal, internalServerError, Prog.run]
        | data v => simp [hn, Marshal, Prog.run, StatusOK]
        | strings v => simp [hn, Marshal, Prog.run, StatusOK]
        | lockInfo v => simp [hn, Marshal, Prog.run, StatusOK]
  constructor
  · intro serial hserial
    apply key
    rcases hserial with ⟨h, rfl⟩ | ⟨h, h2⟩
    · simp [h]
    · simp [h, h2]
  · intro body hbody
    cases hs : (if Get r.query "serial" ≠ "" then Atoi (Get r.query "serial") else Except.ok 0) with
    | error err =>
      left
      by_cases hv : Get r.query "serial" = ""
      · simp [hv] at hs
      · exact ⟨hv, err, by simpa [hv] using hs⟩
    | ok serial =>
      right
      rcases (key serial hs).2.2.2.2 body hbody with ⟨e, he⟩ | ⟨t, ht⟩
      · exact Or.inl ⟨serial, e, he⟩
      · exact Or.inr ⟨serial, t, ht⟩

/-- The serial `1` over a stream with one version gives 200 and the document; no
serial over the empty engine gives the call with serial 0 and 204. -/
theorem GetState_outcomes_witness :
    ((GetState (serialRequest "1")).run memEngine (storing (.data (.bool true)))).calls
      = [.GetState "prod" 1] ∧
    ((GetState (serialRequest "1")).run memEngine (storing (.data (.bool true)))).outcome
      = .responded 200 (.encoding (.data (.bool true))) ∧
    ((GetState (serialRequest "")).run memEngine emptyState).calls = [.GetState "prod" 0] ∧
    ((GetState (serialRequest "")).run memEngine emptyState).outcome = .responded 204 .empty :=
  ⟨((GetState_outcomes memEngine (storing (.data (.bool true))) (serialRequest "1")).1 1
      (Or.inr ⟨by decide, rfl⟩)).1,
   ((GetState_outcomes memEngine (storing (.data (.bool true))) (serialRequest "1")).1 1
      (Or.inr ⟨by decide, rfl⟩)).2.2.2.1 _ rfl rfl (fun _ h => by cases h),
   ((GetState_outcomes memEngine emptyState (serialRequest "")).1 0 (Or.inl ⟨rfl, rfl⟩)).1,
   ((GetState_outcomes memEngine emptyState (serialRequest "")).1 0
      (Or.inl ⟨rfl, rfl⟩)).2.2.1 _ rfl rfl⟩

/-! ## The timestamp layout -/

theorem lex_cons_iff {α : Type} (r : α → α → Prop) [IsIrrefl α r] (a b : α) (l₁ l₂ : List α) :
    List.Lex r (a :: l₁) (b :: l₂) ↔ r a b ∨ (a = b ∧ List.Lex r l₁ l₂) := by
  constructor
  · intro h
    cases h with
    | cons h => exact Or.inr ⟨rfl, h⟩
    | rel h => exact Or.inl h
  · rintro (h | ⟨rfl, h⟩)
    · exact List.Lex.rel h
    · exact List.Lex.cons h

theorem lex_append_iff {α : Type} (r : α → α → Prop) [IsIrrefl α r] :
    ∀ (l₁ l₂ t₁ t₂ : List α), l₁.length = l₂.length →
      (List.Lex r (l₁ ++ t₁) (l₂ ++ t₂) ↔ List.Lex r l₁ l₂ ∨ (l₁ = l₂ ∧ List.Lex r t₁ t₂))
  | [], [], t₁, t₂, _ => by
    constructor
    · intro h; exact Or.inr ⟨rfl, h⟩
    · rintro (h | ⟨_, h⟩)
      · cases h
      · exact h
  | [], _ :: _, _, _, h => by simp at h
  | _ :: _, [], _, _, h => by simp at h
  | a :: l₁, b :: l₂, t₁, t₂, h => by
    have ih := lex_append_iff r l₁ l₂ t₁ t₂ (by simpa using h)
    simp only [List.cons_append, lex_cons_iff, ih, List.cons.injEq]
    tauto

theorem digitChar_mod (n : Nat) : digitChar n = digitChar (n % 10) := by
  simp [digitChar]

theorem digitChar_fin : ∀ a b : Fin 10,
    (digitChar a < digitChar b ↔ a < b) ∧ (digitChar a = digitChar b ↔ a = b) ∧
      (digitChar a).isDigit = true := by
  decide

theorem digitChar_lt (a b : Nat) : digitChar a < digitChar b ↔ a % 10 < b % 10 := by
  have h := (digitChar_fin ⟨a % 10, Nat.mod_lt _ (by decide)⟩ ⟨b % 10, Nat.mod_lt _ (by decide)⟩).1
  rw [digitChar_mod a, digitChar_mod b]
  simpa using h

theorem digitChar_eq (a b : Nat) : digitChar a = digitChar b ↔ a % 10 = b % 10 := by
  have h := (digitChar_fin ⟨a % 10, Nat.mod_lt _ (by decide)⟩ ⟨b % 10, Nat.mod_lt _ (by decide)⟩).2.1
  rw [digitChar_mod a, digitChar_mod b]
  simpa [Fin.ext_iff] using h

theorem digitChar_isDigit (a : Nat) : (digitChar a).isDigit = true := by
  have h := (digitChar_fin ⟨a % 10, Nat.mod_lt _ (by decide)⟩ ⟨a % 10, Nat.mod_lt _ (by decide)⟩).2.2
  rw [digitChar_mod a]
  simpa using h

theorem pad2_lex (a b : Nat) (ha : a < 100) (hb : b < 100) :
    (List.Lex (· < ·) (pad2 a) (pad2 b) ↔ a < b) ∧ (pad2 a = pad2 b ↔ a = b) := by
  simp only [pad2, lex_cons_iff, digitChar_lt, digitChar_eq, List.cons.injEq, and_true]
  constructor
  · constructor
    · rintro (h | ⟨h1, h | ⟨_, h⟩⟩)
      · omega
      · omega
      · cases h
    · intro h
      by_cases h1 : a / 10 % 10 < b / 10 % 10
      · exact Or.inl h1
      · exact Or.inr ⟨by omega, Or.inl (by omega)⟩
  · constructor
    · rintro ⟨h1, h2⟩; omega
    · rintro rfl; exact ⟨rfl, rfl⟩
theorem not_lex_nil {α : Type} (r : α → α → Prop) : ¬ List.Lex r ([] : List α) [] := by
  intro h; cases h

theorem yearDigits_lex (a b : Nat) (ha : a ≤ 9999) (hb : b ≤ 9999) :
    (List.Lex (· < ·) (yearDigits a) (yearDigits b) ↔ a < b) ∧
      (yearDigits a = yearDigits b ↔ a = b) := by
  have ha' : a < 10000 := by omega
  have hb' : b < 10000 := by omega
  have ea1 : a / 100 = a / 10 / 10 := by rw [Nat.div_div_eq_div_mul]
  have ea2 : a / 1000 = a / 10 / 10 / 10 := by
    rw [Nat.div_div_eq_div_mul, Nat.div_div_eq_div_mul]
  have eb1 : b / 100 = b / 10 / 10 := by rw [Nat.div_div_eq_div_mul]
  have eb2 : b / 1000 = b / 10 / 10 / 10 := by
    rw [Nat.div_div_eq_div_mul, Nat.div_div_eq_div_mul]
  have hda : a = 1000 * (a / 10 / 10 / 10 % 10) + 100 * (a / 10 / 10 % 10)
      + 10 * (a / 10 % 10) + a % 10 := by omega
  have hdb : b = 1000 * (b / 10 / 10 / 10 % 10) + 100 * (b / 10 / 10 % 10)
      + 10 * (b / 10 % 10) + b % 10 := by omega
  have a3 : a / 10 / 10 / 10 % 10 < 10 := Nat.mod_lt _ (by decide)
  have a2 : a / 10 / 10 % 10 < 10 := Nat.mod_lt _ (by decide)
  have a1 : a / 10 % 10 < 10 := Nat.mod_lt _ (by decide)
  have a0 : a % 10 < 10 := Nat.mod_lt _ (by decide)
  have b3 : b / 10 / 10 / 10 % 10 < 10 := Nat.mod_lt _ (by decide)
  have b2 : b / 10 / 10 % 10 < 10 := Nat.mod_lt _ (by decide)
  have b1 : b / 10 % 10 < 10 := Nat.mod_lt _ (by decide)
  have b0 : b % 10 < 10 := Nat.mod_lt _ (by decide)
  simp only [yearDigits, ha', hb', if_true, lex_cons_iff, digitChar_lt, digitChar_eq,
    List.cons.injEq, and_true, ea1, ea2, eb1, eb2, not_lex_nil, and_false, or_false]
  generalize a / 10 / 10 / 10 % 10 = x3 at *
  generalize a / 10 / 10 % 10 = x2 at *
  generalize a / 10 % 10 = x1 at *
  generalize a % 10 = x0 at *
  generalize b / 10 / 10 / 10 % 10 = y3 at *
  generalize b / 10 / 10 % 10 = y2 at *
  generalize b / 10 % 10 = y1 at *
  generalize b % 10 = y0 at *
  subst hda hdb
  constructor <;> omega

theorem Format_length (t : Time) (h : t.valid) : t.Format.length = 14 := by
  have hy : t.year < 10000 := by unfold Time.valid at h; omega
  simp [Time.Format, String.length, yearDigits, hy, pad2]

theorem Format_digits (t : Time) (h : t.valid) : ∀ c ∈ t.Format.data, c.isDigit = true := by
  have hy : t.year < 10000 := by unfold Time.valid at h; omega
  simp [Time.Format, yearDigits, hy, pad2, digitChar_isDigit]

theorem Format_lt (a b : Time) (ha : a.valid) (hb : b.valid) :
    a.Format < b.Format ↔ a.before b := by
  unfold Time.valid at ha hb
  obtain ⟨ha1, _, ha2, _, ha3, ha4, ha5, ha6⟩ := ha
  obtain ⟨hb1, _, hb2, _, hb3, hb4, hb5, hb6⟩ := hb
  have hY := yearDigits_lex a.year b.year ha1 hb1
  have hM := pad2_lex a.month b.month (by omega) (by omega)
  have hD := pad2_lex a.day b.day (by omega) (by omega)
  have hH := pad2_lex a.hour b.hour (by omega) (by omega)
  have hm := pad2_lex a.minute b.minute (by omega) (by omega)
  have hS := pad2_lex a.second b.second (by omega) (by omega)
  have l2 : ∀ x y : Nat, (pad2 x).length = (pad2 y).length := fun _ _ => rfl
  have l4 : (yearDigits a.year).length = (yearDigits b.year).length := by
    have h1 : a.year < 10000 := by omega
    have h2 : b.year < 10000 := by omega
    simp [yearDigits, h1, h2]
  rw [String.lt_iff_toList_lt]
  show List.Lex (· < ·) _ _ ↔ _
  simp only [Time.Format, String.toList, List.append_assoc]
  rw [lex_append_iff _ _ _ _ _ l4, lex_append_iff _ _ _ _ _ (l2 _ _),
    lex_append_iff _ _ _ _ _ (l2 _ _), lex_append_iff _ _ _ _ _ (l2 _ _),
    lex_append_iff _ _ _ _ _ (l2 _ _), hY.1, hY.2, hM.1, hM.2, hD.1, hD.2, hH.1, hH.2,
    hm.1, hm.2, hS.1]
  rfl

/-! ## Inserting a version -/

/-- C9: for a request with a decodable body the handler `InsertState` calls the
engine's `InsertState` exactly once, with the decoded document, the request's
timestamp when one is supplied and the formatted clock reading otherwise, the
request's source when one is supplied and `direct` otherwise, and the request's
name; it responds with success exactly when that call returns no error.  For a
clock reading with calendar fields in range and a year of at most four digits
the formatted reading is a string of 14 decimal digits whose order agrees with
the chronological order of the readings. -/
theorem InsertState_applies_defaults {σ : Type} (st : Storage σ) (s : σ) (now : Time)
    (r : Request) (document : Value) (hbody : Decode r.body = .ok document) :
    ((InsertState now r).run st s).calls =
      [.InsertState document ((r.vars "timestamp").getD now.Format)
        ((r.vars "source").getD "direct") r.name] ∧
    ((InsertState now r).run st s).state =
      (st.InsertState document ((r.vars "timestamp").getD now.Format)
        ((r.vars "source").getD "direct") r.name s).2 ∧
    (((InsertState now r).run st s).outcome = .responded 200 .empty ↔
      (st.InsertState document ((r.vars "timestamp").getD now.Format)
        ((r.vars "source").getD "direct") r.name s).1 = none) ∧
    (∀ err, (st.InsertState document ((r.vars "timestamp").getD now.Format)
        ((r.vars "source").getD "direct") r.name s).1 = some err →
      ((InsertState now r).run st s).outcome = failure err.Error) ∧
    (now.valid →
      now.Format.length = 14 ∧ (∀ c ∈ now.Format.data, c.isDigit = true) ∧
      ∀ later : Time, later.valid → (now.Format < later.Format ↔ now.before later)) := by
  refine ⟨?_, ?_, ?_, ?_, fun hnow => ⟨Format_length now hnow, Format_digits now hnow,
    fun later hl => Format_lt now later hnow hl⟩⟩ <;>
  · unfold Request.name
    simp only [InsertState, hbody, Prog.run, Result.after]
    cases ht : r.vars "timestamp" <;> cases hs : r.vars "source" <;>
      simp only [Option.getD] <;>
      split <;> simp_all [internalServerError, Prog.run, failure, StatusOK,
        StatusInternalServerError]

/-- A request without timestamp and source at 2026-11-04 09:05:07: the engine is
called with `20261104090507` and `direct`, and the timestamp of the next second
is the greater string. -/
theorem InsertState_applies_defaults_witness :
    ((InsertState ⟨2026, 11, 4, 9, 5, 7⟩ nullRequest).run memEngine emptyState).calls =
      [.InsertState (.data .null) "20261104090507" "direct" "prod"] ∧
    ("20261104090507" < "20261104090508" ↔
      Time.before ⟨2026, 11, 4, 9, 5, 7⟩ ⟨2026, 11, 4, 9, 5, 8⟩) :=
  ⟨(InsertState_applies_defaults memEngine emptyState ⟨2026, 11, 4, 9, 5, 7⟩ nullRequest
      (.data .null) rfl).1,
   ((InsertState_applies_defaults memEngine emptyState ⟨2026, 11, 4, 9, 5, 7⟩ nullRequest
      (.data .null) rfl).2.2.2.2 (by unfold Time.valid; decide)).2.2 ⟨2026, 11, 4, 9, 5, 8⟩
      (by unfold Time.valid; decide)⟩

/-! ## Unlocking -/

/-- C1 is false on the code: over the in-memory engine, whose unlock clears the
lock record, with `prod` locked by `A`, the Unlock request whose identity is `B`
succeeds, the engine reports no lock afterwards, and the following Lock request
by `B` succeeds. -/
theorem mismatched_unlock_releases_lock :
    decodedLock (prodRequest "B").body = .ok (some (lockOf "B")) ∧
    memEngine.GetLockStatus "prod" (heldBy "A") = .ok (.lockInfo (some (lockOf "A"))) ∧
    ((UnlockState (prodRequest "B")).run memEngine (heldBy "A")).outcome = .responded 200 .empty ∧
    memEngine.GetLockStatus "prod"
      ((UnlockState (prodRequest "B")).run memEngine (heldBy "A")).state = .ok (.data .null) ∧
    ((LockState (prodRequest "B")).run memEngine
      ((UnlockState (prodRequest "B")).run memEngine (heldBy "A")).state).outcome
        = .responded 200 .empty :=
  ⟨rfl, rfl, rfl, rfl, rfl⟩

/-- C1 amended: the handler `UnlockState` compares nothing; it passes the decoded
identity to the engine's `UnlockState` in one call and responds with success
exactly when that call returns no error.  Over an engine whose unlock clears
the record only for the identifier of the stored lock, an Unlock request with
another identifier leaves the lock of `A` in place, and a following Lock request
by any identity gets a conflict response (423 or 409) with the lock of `A`. -/
theorem UnlockState_defers_to_engine :
    (∀ (σ : Type) (st : Storage σ) (s : σ) (r : Request) (p : Option LockInfo),
      decodedLock r.body = .ok p →
      ((UnlockState r).run st s).calls = [.UnlockState r.name (.lockInfo p)] ∧
      ((UnlockState r).run st s).state = (st.UnlockState r.name (.lockInfo p) s).2 ∧
      (((UnlockState r).run st s).outcome = .responded 200 .empty ↔
        (st.UnlockState r.name (.lockInfo p) s).1 = none)) ∧
    (∀ (s : MemState) (r : Request) (A B : LockInfo),
      guardedEngine.GetLockStatus r.name s = .ok (.lockInfo (some A)) →
      decodedLock r.body = .ok (some B) → B.ID ≠ A.ID →
      guardedEngine.GetLockStatus r.name ((UnlockState r).run guardedEngine s).state
        = .ok (.lockInfo (some A)) ∧
      ∀ (next : Request) (R : LockInfo), next.name = r.name →
        decodedLock next.body = .ok (some R) →
        ((LockState next).run guardedEngine ((UnlockState r).run guardedEngine s).state).outcome
          = .responded (if R.ID = A.ID then 423 else 409) (.encoding (.lockInfo (some A)))) := by
  constructor
  · intro σ st s r p h
    rw [UnlockState_run_decoded st s r p h]
    unfold Request.name
    refine ⟨rfl, rfl, ?_⟩
    cases (st.UnlockState (index r.vars "name") (.lockInfo p) s).1 <;> simp [failure, success]
  · intro s r A B hA hB hne
    have hstored : s.locks r.name = some (.lockInfo (some A)) := by
      simp only [guardedEngine, memEngine] at hA
      cases hl : s.locks r.name with
      | none => simp [hl] at hA
      | some v => simpa [hl] using hA
    have hstate : ((UnlockState r).run guardedEngine s).state = s := by
      rw [UnlockState_run_decoded guardedEngine s r _ hB]
      unfold Request.name at hstored
      simp [guardedEngine, hstored, lockID, Ne.symm hne]
    rw [hstate]
    refine ⟨hA, fun next R hname hR => ?_⟩
    exact LockState_run_conflict guardedEngine s next A R hR (by rw [← Request.name, hname]; exact hA)

/-- Over the guarded engine with `prod` locked by `A`, the unlock by `B` leaves
the lock of `A` and the following lock by `B` gets 409. -/
theorem UnlockState_defers_to_engine_witness :
    guardedEngine.GetLockStatus "prod"
        ((UnlockState (prodRequest "B")).run guardedEngine (heldBy "A")).state
      = .ok (.lockInfo (some (lockOf "A"))) ∧
    ((LockState (prodRequest "B")).run guardedEngine
        ((UnlockState (prodRequest "B")).run guardedEngine (heldBy "A")).state).outcome
      = .responded 409 (.encoding (.lockInfo (some (lockOf "A")))) :=
  ⟨(UnlockState_defers_to_engine.2 (heldBy "A") (prodRequest "B") (lockOf "A") (lockOf "B")
      rfl rfl (by decide)).1,
   (UnlockState_defers_to_engine.2 (heldBy "A") (prodRequest "B") (lockOf "A") (lockOf "B")
      rfl rfl (by decide)).2 (prodRequest "B") (lockOf "B") rfl rfl⟩

/-! ## Sequences of lock and unlock requests -/

theorem memEngine_keepsLocks (name : String) : KeepsLocks memEngine name := by
  constructor
  · intro v s _
    simp [memEngine, setLock]
  · intro v s h
    simp [memEngine] at h

theorem lock_while_held {σ : Type} (st : Storage σ) (s : σ) (r : Request) (v : Value)
    (h : st.GetLockStatus r.name s = .ok v) (hv : v.isNil = false) :
    ((LockState r).run st s).state = s ∧
    ((LockState r).run st s).outcome ≠ success := by
  cases hd : decodedLock r.body with
  | error err =>
    rw [LockState_run_undecodable st s r err hd]
    simp [failure, success]
  | ok p =>
    obtain ⟨_, hs, ho⟩ := LockState_run_held st s r p v hd h hv
    exact ⟨hs, ho .empty⟩

theorem lock_success_only_if_free {σ : Type} (st : Storage σ) (s : σ) (r : Request)
    (payload : Payload) (h : ((LockState r).run st s).outcome = .responded 200 payload) :
    ∃ lock p, decodedLock r.body = .ok p ∧ st.GetLockStatus r.name s = .ok lock ∧
      lock.isNil = true ∧ (st.LockState r.name (.lockInfo p) s).1 = none ∧
      ((LockState r).run st s).state = (st.LockState r.name (.lockInfo p) s).2 := by
  cases hd : decodedLock r.body with
  | error err =>
    rw [LockState_run_undecodable st s r err hd] at h
    simp [failure] at h
  | ok p =>
    cases hl : st.GetLockStatus r.name s with
    | error e =>
      rw [LockState_run_statusError st s r p e hd hl] at h
      simp [failure] at h
    | ok lock =>
      cases hn : lock.isNil with
      | false => exact absurd h ((LockState_run_held st s r p lock hd hl hn).2.2 payload)
      | true =>
        refine ⟨lock, p, rfl, rfl, hn, ?_, ?_⟩
        · rw [LockState_run_free st s r p lock hd hl hn] at h
          unfold Request.name
          cases he : (st.LockState (index r.vars "name") (.lockInfo p) s).1 with
          | none => rfl
          | some e => simp [he, failure] at h
        · rw [LockState_run_free st s r p lock hd hl hn]
          rfl

theorem lock_success_holds {σ : Type} (st : Storage σ) (s : σ) (r : Request)
    (hst : KeepsLocks st r.name) (h : ((LockState r).run st s).outcome = success) :
    ∃ v, st.GetLockStatus r.name ((LockState r).run st s).state = .ok v ∧ v.isNil = false := by
  obtain ⟨lock, p, _, _, _, hnone, hstate⟩ := lock_success_only_if_free st s r .empty h
  exact ⟨.lockInfo p, by rw [hstate]; exact hst.1 _ s hnone, rfl⟩

theorem unlock_succeeds_or_keeps {σ : Type} (st : Storage σ) (s : σ) (r : Request)
    (hst : KeepsLocks st r.name) :
    ((UnlockState r).run st s).outcome = success ∨
      st.GetLockStatus r.name ((UnlockState r).run st s).state = st.GetLockStatus r.name s := by
  cases hd : decodedLock r.body with
  | error err => right; rw [UnlockState_run_undecodable st s r err hd]
  | ok p =>
    rw [UnlockState_run_decoded st s r p hd]
    cases he : (st.UnlockState (index r.vars "name") (.lockInfo p) s).1 with
    | none => left; rfl
    | some e =>
      right
      exact hst.2 (.lockInfo p) s (by unfold Request.name; simp [he])

theorem serve_while_held {σ : Type} (st : Storage σ) (name : String) (hst : KeepsLocks st name) :
    ∀ (ops : List Op) (s : σ) (m : Nat) (rj : Request),
      (∃ v, st.GetLockStatus name s = .ok v ∧ v.isNil = false) →
      (∀ op ∈ ops, op.request.name = name) →
      ops[m]? = some (.lock rj) → (serve st ops s).1[m]? = some success →
      ∃ k rk, k < m ∧ ops[k]? = some (.unlock rk) ∧ (serve st ops s).1[k]? = some success
  | [], _, _, _, _, _, h, _ => by simp at h
  | op :: ops, s, 0, rj, ⟨v, hv, hn⟩, hname, hop, hout => by
    simp only [List.getElem?_cons_zero, Option.some.injEq] at hop
    subst hop
    have hr : rj.name = name := hname _ (List.mem_cons_self _ _)
    simp only [serve, List.getElem?_cons_zero, Option.some.injEq, Op.prog] at hout
    exact absurd hout (lock_while_held st s rj v (by rw [hr]; exact hv) hn).2
  | op :: ops, s, m + 1, rj, ⟨v, hv, hn⟩, hname, hop, hout => by
    simp only [List.getElem?_cons_succ] at hop
    simp only [serve, List.getElem?_cons_succ] at hout
    have hnames : ∀ op ∈ ops, op.request.name = name :=
      fun o ho => hname o (List.mem_cons_of_mem _ ho)
    have hr : op.request.name = name := hname _ (List.mem_cons_self _ _)
    have step : st.GetLockStatus name (op.prog.run st s).state = st.GetLockStatus name s →
        ∃ k rk, k < m + 1 ∧ (op :: ops)[k]? = some (.unlock rk) ∧
          (serve st (op :: ops) s).1[k]? = some success := by
      intro hs
      obtain ⟨k, rk, hk, h1, h2⟩ := serve_while_held st name hst ops _ m rj
        ⟨v, by rw [hs]; exact hv, hn⟩ hnames hop hout
      refine ⟨k + 1, rk, by omega, by simpa using h1, ?_⟩
      simp only [serve, List.getElem?_cons_succ]
      exact h2
    cases op with
    | lock r =>
      have hr2 : r.name = name := hr
      have hs := (lock_while_held st s r v (by rw [hr2]; exact hv) hn).1
      exact step (by simp only [Op.prog]; rw [hs])
    | unlock r =>
      have hr2 : r.name = name := hr
      rcases unlock_succeeds_or_keeps st s r (by rw [hr2]; exact hst) with h | h
      · exact ⟨0, r, by omega, by simp, by simp [serve, Op.prog, h]⟩
      · exact step (by simp only [Op.prog]; rw [← hr2]; exact h)

theorem serve_exclusive {σ : Type} (st : Storage σ) (name : String) (hst : KeepsLocks st name) :
    ∀ (ops : List Op) (s : σ) (i j : Nat) (ri rj : Request),
      (∀ op ∈ ops, op.request.name = name) → i < j →
      ops[i]? = some (.lock ri) → (serve st ops s).1[i]? = some success →
      ops[j]? = some (.lock rj) → (serve st ops s).1[j]? = some success →
      ∃ k rk, i < k ∧ k < j ∧ ops[k]? = some (.unlock rk) ∧
        (serve st ops s).1[k]? = some success
  | [], _, _, _, _, _, _, _, h, _, _, _ => by simp at h
  | _ :: _, _, _, 0, _, _, _, hij, _, _, _, _ => by omega
  | op :: ops, s, 0, j + 1, ri, rj, hname, _, hi, hoi, hj, hoj => by
    simp only [List.getElem?_cons_zero, Option.some.injEq] at hi
    subst hi
    simp only [serve, List.getElem?_cons_zero, Option.some.injEq, Op.prog] at hoi
    simp only [List.getElem?_cons_succ] at hj
    simp only [serve, List.getElem?_cons_succ, Op.prog] at hoj
    have hr : ri.name = name := hname _ (List.mem_cons_self _ _)
    obtain ⟨v, hv, hn⟩ := lock_success_holds st s ri (by rw [hr]; exact hst) hoi
    obtain ⟨k, rk, hk, h1, h2⟩ := serve_while_held st name hst ops _ j rj
      ⟨v, by rw [← hr]; exact hv, hn⟩
      (fun o ho => hname o (List.mem_cons_of_mem _ ho)) hj hoj
    exact ⟨k + 1, rk, by omega, by omega, by simpa using h1, by simpa [serve, Op.prog] using h2⟩
  | op :: ops, s, i + 1, j + 1, ri, rj, hname, hij, hi, hoi, hj, hoj => by
    simp only [List.getElem?_cons_succ] at hi hj
    simp only [serve, List.getElem?_cons_succ] at hoi hoj
    obtain ⟨k, rk, hk1, hk2, h1, h2⟩ := serve_exclusive st name hst ops _ i j ri rj
      (fun o ho => hname o (List.mem_cons_of_mem _ ho)) (by omega) hi hoi hj hoj
    exact ⟨k + 1, rk, by omega, by omega, by simpa using h1, by simpa [serve] using h2⟩

/-- C4: the handler `LockState` responds with status 200 only if the engine's
`GetLockStatus` reported no lock for the name and the engine's `LockState` call
then returned no error; and for every sequence of Lock and Unlock requests on
one name, served one at a time over an engine that reports the lock it stored
until an unlock goes through (the in-memory engine, which stores the lock it is
given and clears it on unlock, is one), two Lock requests that both succeed have
an Unlock request between them, and that one succeeded. -/
theorem LockState_mutual_exclusion :
    (∀ (σ : Type) (st : Storage σ) (s : σ) (r : Request) (payload : Payload),
      ((LockState r).run st s).outcome = .responded 200 payload →
      ∃ lock p, decodedLock r.body = .ok p ∧ st.GetLockStatus r.name s = .ok lock ∧
        lock.isNil = true ∧ (st.LockState r.name (.lockInfo p) s).1 = none) ∧
    (∀ (σ : Type) (st : Storage σ) (name : String), KeepsLocks st name →
      ∀ (ops : List Op) (s : σ) (i j : Nat) (ri rj : Request),
      (∀ op ∈ ops, op.request.name = name) → i < j →
      ops[i]? = some (.lock ri) → (serve st ops s).1[i]? = some (.responded 200 .empty) →
      ops[j]? = some (.lock rj) → (serve st ops s).1[j]? = some (.responded 200 .empty) →
      ∃ k rk, i < k ∧ k < j ∧ ops[k]? = some (.unlock rk) ∧
        (serve st ops s).1[k]? = some (.responded 200 .empty)) ∧
    (∀ name, KeepsLocks memEngine name) := by
  refine ⟨fun σ st s r payload h => ?_, fun σ st name hst => serve_exclusive st name hst,
    memEngine_keepsLocks⟩
  obtain ⟨lock, p, h1, h2, h3, h4, _⟩ := lock_success_only_if_free st s r payload h
  exact ⟨lock, p, h1, h2, h3, h4⟩

/-- The scenario of the spec: lock `A` succeeds, lock `A` again gets 423 and lock
`B` gets 409, unlock `A` succeeds, then lock `B` succeeds; between the two
successful locks there is the unlock. -/
theorem LockState_mutual_exclusion_witness :
    (serve memEngine scenario emptyState).1 =
      [.responded 200 .empty,
       .responded 423 (.encoding (.lockInfo (some (lockOf "A")))),
       .responded 409 (.encoding (.lockInfo (some (lockOf "A")))),
       .responded 200 .empty,
       .responded 200 .empty] ∧
    ∃ k rk, 0 < k ∧ k < 4 ∧ scenario[k]? = some (.unlock rk) ∧
      (serve memEngine scenario emptyState).1[k]? = some (.responded 200 .empty) :=
  ⟨rfl, LockState_mutual_exclusion.2.1 MemState memEngine "prod"
    (LockState_mutual_exclusion.2.2 "prod") scenario emptyState 0 4 (prodRequest "A")
    (prodRequest "B") (by simp [scenario, Op.request, Request.name, prodRequest, index, varsOf])
    (by decide) rfl rfl rfl rfl⟩

/-! ## Two concurrent lock requests -/

theorem LockState_residual (r : Request) :
    Residual r.name (LockState r) ∧ LockState r ≠ .done success := by
  unfold Request.name
  cases hb : ReadAll r.body with
  | error err =>
    simp [LockState, hb, Residual, internalServerError, success, StatusInternalServerError]
  | ok body =>
    cases hu : Unmarshal body with
    | error err =>
      simp [LockState, hb, hu, Residual, internalServerError, success, StatusInternalServerError]
    | ok p =>
      simp only [LockState, hb, hu, ne_eq, not_false_eq_true, and_true, reduceCtorEq]
      right; right
      refine ⟨_, rfl, fun x => ?_⟩
      cases x with
      | error e =>
        left
        exact ⟨_, rfl, by simp [success, StatusInternalServerError]⟩
      | ok lock =>
        cases hn : lock.isNil with
        | true =>
          right
          simp only [hn, Bool.not_true, Bool.false_eq_true, if_false, Committing, true_and]
          refine ⟨by simp [success, StatusOK], fun e => ⟨_, rfl, ?_⟩⟩
          simp [success, StatusInternalServerError]
        | false =>
          left
          simp only [hn, Bool.not_false, if_true]
          cases lock with
          | lockInfo q =>
            cases p <;> cases q <;> simp [success, StatusLocked, StatusConflict]
            split <;> simp [success, StatusLocked, StatusConflict]
          | _ => simp [success]

theorem atomic_step (name : String) (p q : Prog) (s : MemState)
    (hp : Residual name p) (hq : Residual name q)
    (hlocked : p = .done success ∨ q = .done success → (s.locks name).isSome = true)
    (hnot : ¬ (p = .done success ∧ q = .done success)) :
    Residual name (p.step atomicEngine s).1 ∧
    ((p.step atomicEngine s).1 = .done success ∨ q = .done success →
      ((p.step atomicEngine s).2.locks name).isSome = true) ∧
    ¬ ((p.step atomicEngine s).1 = .done success ∧ q = .done success) := by
  rcases hp with ⟨o, rfl⟩ | hc | ⟨k, rfl, hk⟩
  · exact ⟨Or.inl ⟨o, rfl⟩, hlocked, hnot⟩
  · cases p with
    | LockState n v k =>
      obtain ⟨rfl, hnone, hsome⟩ := hc
      cases hl : s.locks n with
      | some stored =>
        obtain ⟨o, ho, hne⟩ := hsome (.Conflict stored "state is already locked")
        have hstep : (Prog.LockState n v k).step atomicEngine s = (.done o, s) := by
          simp [Prog.step, atomicEngine, hl, ho]
        rw [hstep]
        refine ⟨Or.inl ⟨o, rfl⟩, fun _ => by simp [hl], ?_⟩
        rintro ⟨h, _⟩
        exact hne (by simpa using h)
      | none =>
        have hstep : (Prog.LockState n v k).step atomicEngine s
            = (.done success, { s with locks := setLock s.locks n (some v) }) := by
          simp [Prog.step, atomicEngine, hl, hnone]
        rw [hstep]
        refine ⟨Or.inl ⟨_, rfl⟩, fun _ => by simp [setLock], ?_⟩
        rintro ⟨_, h⟩
        have := hlocked (Or.inr h)
        simp [hl] at this
    | _ => exact absurd hc (by simp [Committing])
  · have hstep : (Prog.GetLockStatus name k).step atomicEngine s
        = (k (atomicEngine.GetLockStatus name s), s) := rfl
    rw [hstep]
    have hne : k (atomicEngine.GetLockStatus name s) ≠ .done success := by
      rcases hk (atomicEngine.GetLockStatus name s) with ⟨o, ho, hne⟩ | hc
      · rw [ho]; intro h; exact hne (by simpa using h)
      · intro h; rw [h] at hc; exact hc
    refine ⟨?_, fun h => ?_, fun h => hne h.1⟩
    · rcases hk (atomicEngine.GetLockStatus name s) with ⟨o, ho, _⟩ | hc
      · exact Or.inl ⟨o, ho⟩
      · exact Or.inr (Or.inl hc)
    · rcases h with h | h
      · exact absurd h hne
      · exact hlocked (Or.inr h)

theorem atomic_interleave (name : String) :
    ∀ (schedule : List Bool) (p q : Prog) (s : MemState),
      Residual name p → Residual name q →
      (p = .done success ∨ q = .done success → (s.locks name).isSome = true) →
      ¬ (p = .done success ∧ q = .done success) →
      ¬ ((interleave atomicEngine schedule p q s).1 = some success ∧
        (interleave atomicEngine schedule p q s).2.1 = some success)
  | [], p, q, s, _, _, _, hnot => by
    simp only [interleave]
    rintro ⟨h1, h2⟩
    apply hnot
    cases p <;> cases q <;> simp_all [Prog.ended]
  | true :: schedule, p, q, s, hp, hq, hlocked, hnot => by
    obtain ⟨h1, h2, h3⟩ := atomic_step name p q s hp hq hlocked hnot
    simp only [interleave]
    exact atomic_interleave name schedule _ q _ h1 hq h2 h3
  | false :: schedule, p, q, s, hp, hq, hlocked, hnot => by
    obtain ⟨h1, h2, h3⟩ := atomic_step name q p s hq hp (fun h => hlocked h.symm)
      (fun h => hnot h.symm)
    simp only [interleave]
    exact atomic_interleave name schedule p _ _ hp h1 (fun h => h2 h.symm) (fun h => h3 h.symm)

theorem step_endsWithin {σ : Type} (st : Storage σ) (name : String) (s : σ) :
    ∀ (n : Nat) (p : Prog), EndsWithin name (n + 1) p → EndsWithin name n (p.step st s).1
  | 0, p, h => by
    rcases h with ⟨o, rfl⟩ | hc
    · exact ⟨o, rfl⟩
    · cases p with
      | LockState n v k =>
        obtain ⟨_, hnone, hsome⟩ := hc
        cases he : (st.LockState n v s).1 with
        | none => exact ⟨success, by simp [Prog.step, he, hnone]⟩
        | some e =>
          obtain ⟨o, ho, _⟩ := hsome e
          exact ⟨o, by simp [Prog.step, he, ho]⟩
      | _ => exact absurd hc (by simp [Committing])
  | 1, p, h => by
    rcases h with ⟨o, rfl⟩ | hc | ⟨k, rfl, hk⟩
    · exact Or.inl ⟨o, rfl⟩
    · exact Or.inl (step_endsWithin st name s 0 p (Or.inr hc))
    · rcases hk (st.GetLockStatus name s) with ⟨o, ho, _⟩ | hc
      · exact Or.inl ⟨o, ho⟩
      · exact Or.inr hc
  | n + 2, p, h => by
    have h1 := step_endsWithin st name s 1 p h
    rcases h1 with hd | hc
    · exact Or.inl hd
    · exact Or.inr (Or.inl hc)

theorem step_ended {σ : Type} (st : Storage σ) (name : String) (s : σ) (p : Prog)
    (h : EndsWithin name 0 p) : EndsWithin name 0 (p.step st s).1 := by
  obtain ⟨o, rfl⟩ := h
  exact ⟨o, rfl⟩

theorem interleave_ends {σ : Type} (st : Storage σ) (name : String) :
    ∀ (schedule : List Bool) (p q : Prog) (s : σ) (n m : Nat),
      EndsWithin name n p → EndsWithin name m q →
      n ≤ schedule.count true → m ≤ schedule.count false →
      (interleave st schedule p q s).1.isSome = true ∧
        (interleave st schedule p q s).2.1.isSome = true
  | [], p, q, s, n, m, hp, hq, hn, hm => by
    simp only [List.count_nil, Nat.le_zero_eq] at hn hm
    subst hn hm
    obtain ⟨o, rfl⟩ := hp
    obtain ⟨o2, rfl⟩ := hq
    simp [interleave, Prog.ended]
  | true :: schedule, p, q, s, n, m, hp, hq, hn, hm => by
    simp only [interleave]
    simp only [List.count_cons, if_true, beq_self_eq_true] at hn
    simp only [List.count_cons] at hm
    cases n with
    | zero =>
      exact interleave_ends st name schedule _ q _ 0 m (step_ended st name s p hp) hq
        (by omega) (by simpa using hm)
    | succ n =>
      exact interleave_ends st name schedule _ q _ n m (step_endsWithin st name s n p hp) hq
        (by omega) (by simpa using hm)
  | false :: schedule, p, q, s, n, m, hp, hq, hn, hm => by
    simp only [interleave]
    simp only [List.count_cons, if_true, beq_self_eq_true] at hm
    simp only [List.count_cons] at hn
    cases m with
    | zero =>
      exact interleave_ends st name schedule p _ _ n 0 hp (step_ended st name s q hq)
        (by simpa using hn) (by omega)
    | succ m =>
      exact interleave_ends st name schedule p _ _ n m hp (step_endsWithin st name s m q hq)
        (by simpa using hn) (by omega)

theorem run_step {σ : Type} (st : Storage σ) (p : Prog) (s : σ) :
    ((p.step st s).1.run st (p.step st s).2).outcome = (p.run st s).outcome ∧
    ((p.step st s).1.run st (p.step st s).2).state = (p.run st s).state := by
  cases p <;> simp [Prog.step, Prog.run, Result.after]

/-- C5 is false on the code: the handler `LockState` reads `GetLockStatus` and
then, in a separate call, writes with the engine's `LockState`; when two Lock
requests on the unlocked `prod` both read before either writes, over an engine
whose `LockState` is insert-iff-absent, the second engine call fails with a
conflict carrying the lock of `A`, and the handler answers it with the generic
internal failure 500, not with a conflict response carrying that lock. -/
theorem racing_lock_loser_gets_internal_error :
    ((LockState (prodRequest "A")).run atomicEngine emptyState).calls
      = [.GetLockStatus "prod", .LockState "prod" (.lockInfo (some (lockOf "A")))] ∧
    (atomicEngine.LockState "prod" (.lockInfo (some (lockOf "B"))) (heldBy "A")).1
      = some (.Conflict (.lockInfo (some (lockOf "A"))) "state is already locked") ∧
    (interleave atomicEngine [true, false, true, false] (LockState (prodRequest "A"))
        (LockState (prodRequest "B")) emptyState).1 = some (.responded 200 .empty) ∧
    (interleave atomicEngine [true, false, true, false] (LockState (prodRequest "A"))
        (LockState (prodRequest "B")) emptyState).2.1
      = some (.responded 500 (.text "500 - Internal server error: state is already locked")) ∧
    (interleave atomicEngine [true, false, true, false] (LockState (prodRequest "A"))
        (LockState (prodRequest "B")) emptyState).2.2 = heldBy "A" :=
  ⟨rfl, rfl, rfl, rfl, rfl⟩

/-- C5 amended: the handler `LockState` acquires a lock by a read followed by a
separate write: when `GetLockStatus` reports no lock it calls the engine's
`LockState` once, responds with success when that call returns no error, and
with the generic internal failure 500 carrying the message when it returns an
error of any class.  Over an engine whose `LockState` is insert-iff-absent, for
every interleaving of the engine calls of two Lock requests on the same name, at
most one of them receives success; and every schedule that lets each request
make two engine calls ends both. -/
theorem LockState_check_then_act :
    (∀ (σ : Type) (st : Storage σ) (s : σ) (r : Request) (p : Option LockInfo) (lock : Value),
      decodedLock r.body = .ok p → st.GetLockStatus r.name s = .ok lock → lock.isNil = true →
      ((LockState r).run st s).calls
        = [.GetLockStatus r.name, .LockState r.name (.lockInfo p)] ∧
      ((st.LockState r.name (.lockInfo p) s).1 = none →
        ((LockState r).run st s).outcome = .responded 200 .empty) ∧
      (∀ e, (st.LockState r.name (.lockInfo p) s).1 = some e →
        ((LockState r).run st s).outcome
          = .responded 500 (.text ("500 - Internal server error: " ++ e.Error)))) ∧
    (∀ (schedule : List Bool) (first second : Request) (s : MemState),
      first.name = second.name →
      ¬ ((interleave atomicEngine schedule (LockState first) (LockState second) s).1
            = some (.responded 200 .empty) ∧
         (interleave atomicEngine schedule (LockState first) (LockState second) s).2.1
            = some (.responded 200 .empty))) ∧
    (∀ (schedule : List Bool) (first second : Request) (s : MemState),
      first.name = second.name → 2 ≤ schedule.count true → 2 ≤ schedule.count false →
      (interleave atomicEngine schedule (LockState first) (LockState second) s).1.isSome = true ∧
      (interleave atomicEngine schedule (LockState first) (LockState second) s).2.1.isSome
        = true) := by
  refine ⟨?_, ?_, ?_⟩
  · intro σ st s r p lock hd hl hn
    rw [LockState_run_free st s r p lock hd hl hn]
    unfold Request.name
    refine ⟨rfl, fun h => ?_, fun e h => ?_⟩
    · simp [h, success]
    · simp [h, failure]
  · intro schedule first second s hname
    have h1 := LockState_residual first
    have h2 := LockState_residual second
    rw [← hname] at h2
    exact atomic_interleave first.name schedule _ _ s h1.1 h2.1
      (fun h => by rcases h with h | h; exact absurd h h1.2; exact absurd h h2.2)
      (fun h => h1.2 h.1)
  · intro schedule first second s hname hn hm
    have h1 := (LockState_residual first).1
    have h2 := (LockState_residual second).1
    rw [← hname] at h2
    exact interleave_ends atomicEngine first.name schedule _ _ s 2 2 h1 h2 hn hm

/-- The calls of one lock request on the unlocked `prod`, the response to an
engine failure, and one interleaving of two lock requests. -/
theorem LockState_check_then_act_witness :
    ((LockState (prodRequest "A")).run atomicEngine emptyState).calls
        = [.GetLockStatus "prod", .LockState "prod" (.lockInfo (some (lockOf "A")))] ∧
    ((LockState (prodRequest "B")).run (failingEngineAfterStatus) ()).outcome
        = .responded 500 (.text ("500 - Internal server error: " ++ "disk failure")) ∧
    ¬ ((interleave atomicEngine [false, true, false, true] (LockState (prodRequest "A"))
          (LockState (prodRequest "B")) emptyState).1 = some (.responded 200 .empty) ∧
       (interleave atomicEngine [false, true, false, true] (LockState (prodRequest "A"))
          (LockState (prodRequest "B")) emptyState).2.1 = some (.responded 200 .empty)) ∧
    ((interleave atomicEngine [false, true, false, true] (LockState (prodRequest "A"))
          (LockState (prodRequest "B")) emptyState).1.isSome = true ∧
     (interleave atomicEngine [false, true, false, true] (LockState (prodRequest "A"))
          (LockState (prodRequest "B")) emptyState).2.1.isSome = true) :=
  ⟨(LockState_check_then_act.1 MemState atomicEngine emptyState (prodRequest "A")
      (some (lockOf "A")) (.data .null) rfl rfl rfl).1,
   (LockState_check_then_act.1 Unit failingEngineAfterStatus () (prodRequest "B")
      (some (lockOf "B")) (.data .null) rfl rfl rfl).2.2 (.IOFailure "disk failure") rfl,
   LockState_check_then_act.2.1 [false, true, false, true] (prodRequest "A") (prodRequest "B")
      emptyState rfl,
   LockState_check_then_act.2.2 [false, true, false, true] (prodRequest "A") (prodRequest "B")
      emptyState rfl (by decide) (by decide)⟩

end TerraDB
